import Mathlib

/-!
Verification of the OAM Kubernetes remote addon's core logic: the
translation/wrapping pipeline (`translate.go`), the trait-modification
accessor (`modify.go`), the per-template merge-patch engine (`apply.go`
and the earlier `KubeAppApply` applicator), and the reconciler state
machines (`reconciler.go` for workloads and traits).

Embedded object bodies (`unstructured.Unstructured` / `RawExtension`
values) are modelled as a concrete JSON value type; `json.Marshal` and
`json.Unmarshal` between a body and its byte representation are then
identities, which is faithful because the only values marshalled are
already unstructured JSON content.  The store client is modelled as an
in-memory map plus a recorded list of mutating calls.
-/

namespace OamRemote

/-- A JSON document, as manipulated by the merge-patch engine.
Objects are association lists; Go produces objects with unique keys. -/
inductive Json where
  | null : Json
  | bool : Bool → Json
  | num : Int → Json
  | str : String → Json
  | arr : List Json → Json
  | obj : List (String × Json) → Json

/-- Whether a JSON value is `null`. -/
def Json.isNull : Json → Bool
  | .null => true
  | _ => false

/-- Whether a JSON value is an array. -/
def Json.isArr : Json → Bool
  | .arr _ => true
  | _ => false

/-- Whether a JSON value is an object. -/
def Json.isObj : Json → Bool
  | .obj _ => true
  | _ => false

/-- Look up the first binding of a key in a JSON object's field list. -/
def lookupField : List (String × Json) → String → Option Json
  | [], _ => none
  | (k, v) :: fs, key => if k = key then some v else lookupField fs key

/-- Remove every binding of a key from a JSON object's field list. -/
def removeField : List (String × Json) → String → List (String × Json)
  | [], _ => []
  | (k, v) :: fs, key =>
      if k = key then removeField fs key else (k, v) :: removeField fs key

/-- Replace the first binding of a key, or append one if absent. -/
def setField : List (String × Json) → String → Json → List (String × Json)
  | [], key, v => [(key, v)]
  | (k, w) :: fs, key, v =>
      if k = key then (key, v) :: fs else (k, w) :: setField fs key v

/-- Field lookup on a JSON value: `none` unless the value is an object
that binds the key. -/
def Json.get? : Json → String → Option Json
  | .obj fs, key => lookupField fs key
  | _, _ => none

/-- The field list of a JSON value (empty for non-objects). -/
def Json.fieldsOf : Json → List (String × Json)
  | .obj fs => fs
  | _ => []

mutual
/-- RFC 7386 merge patch, the contract required of the patch library by
the apply path: object patches merge key by key (a `null` value removes
the key), every non-object patch value — scalars and arrays alike —
replaces the target value wholesale. -/
def mergePatch : Json → Json → Json
  | target, .obj pfs => .obj (mergeFields target.fieldsOf pfs)
  | _, patch => patch

/-- Apply the bindings of an object patch, in order, to a field list. -/
def mergeFields (tfs : List (String × Json)) : List (String × Json) → List (String × Json)
  | [] => tfs
  | (k, v) :: pfs =>
      if v.isNull then mergeFields (removeField tfs k) pfs
      else mergeFields (setField tfs k (mergePatch ((lookupField tfs k).getD Json.null) v)) pfs
end

/-- A JSON value's top-level object keys are pairwise distinct.  Holds
for every document produced by Go's JSON marshaller. -/
def Json.KeysNodup : Json → Prop
  | .obj fs => (fs.map Prod.fst).Nodup
  | _ => True

instance : DecidablePred Json.KeysNodup := by
  intro j
  cases j <;> simp [Json.KeysNodup] <;> infer_instance

end OamRemote

namespace OamRemote

/-- Group, version and kind identity of an object (`schema.GroupVersionKind`). -/
structure GVK where
  group : String
  version : String
  kind : String
deriving Repr, DecidableEq

/-- Split a character list at every occurrence of a separator. -/
def splitOnChar (c : Char) : List Char → List (List Char)
  | [] => [[]]
  | x :: xs =>
      if x = c then [] :: splitOnChar c xs
      else match splitOnChar c xs with
        | [] => [[x]]
        | r :: rs => (x :: r) :: rs

/-- `schema.FromAPIVersionAndKind`: split `apiVersion` at the slash; with no
slash the whole string is the version; with more than one slash parsing
fails and the group and version are left empty. -/
def gvkFromAPIVersionAndKind (apiVersion kind : String) : GVK :=
  match (splitOnChar (Char.ofNat 47) apiVersion.toList).map String.mk with
  | [v] => ⟨"", v, kind⟩
  | [g, v] => ⟨g, v, kind⟩
  | _ => ⟨"", "", kind⟩

/-- The group, version and kind recorded inside an unstructured body, read
from its `apiVersion` and `kind` string fields (empty when missing). -/
def Json.gvk (j : Json) : GVK :=
  let apiVersion := match j.get? "apiVersion" with
    | some (.str s) => s
    | _ => ""
  let kind := match j.get? "kind" with
    | some (.str s) => s
    | _ => ""
  gvkFromAPIVersionAndKind apiVersion kind

/-- One entry of `metav1.OwnerReference`, with the fields this repo uses. -/
structure OwnerReference where
  name : String
  uid : String
  controller : Bool
  blockOwnerDeletion : Bool
deriving Repr, DecidableEq

/-- An OAM workload as seen by the translation pipeline: object metadata
plus the kind reported by `GetObjectKind`. -/
structure Workload where
  name : String
  nspace : String
  uid : String
  gvk : GVK
deriving Repr, DecidableEq

/-- `corev1.ContainerPort` (modelled fields). -/
structure ContainerPort where
  name : String
  containerPort : Int
deriving Repr, DecidableEq

/-- `corev1.Container` (modelled fields). -/
structure Container where
  name : String
  ports : List ContainerPort
deriving Repr, DecidableEq

/-- `appsv1.Deployment` (modelled fields, incl. `TypeMeta`). -/
structure Deployment where
  kind : String
  apiVersion : String
  name : String
  replicas : Option Int
  selectorMatchLabels : List (String × String)
  templateLabels : List (String × String)
  containers : List Container
deriving Repr, DecidableEq

/-- `corev1.ServicePort` (modelled fields). -/
structure ServicePort where
  name : String
  port : Int
  targetPort : Int
deriving Repr, DecidableEq

/-- `corev1.Service` (modelled fields, incl. `TypeMeta`). -/
structure Service where
  kind : String
  apiVersion : String
  name : String
  labels : List (String × String)
  selector : List (String × String)
  ports : List ServicePort
  svcType : String
deriving Repr, DecidableEq

/-- `workloadv1alpha1.KubernetesApplicationResourceTemplate`: metadata name
and labels plus the embedded unstructured body. -/
structure ResourceTemplate where
  name : String
  labels : List (String × String)
  template : Json

/-- `workloadv1alpha1.KubernetesApplication` (the Carrier): metadata, the
resource selector and the ordered resource-template array. -/
structure KubernetesApplication where
  name : String
  nspace : String
  ownerRefs : List OwnerReference
  resourceSelector : List (String × String)
  resourceTemplates : List ResourceTemplate

/-- A `runtime.Object` in the translation pipeline: one of the concrete
types this repo handles, or an unstructured object of some other kind
(whose type assertion to `*appsv1.Deployment` fails). -/
inductive K8sObject where
  | deployment : Deployment → K8sObject
  | service : Service → K8sObject
  | kubeApp : KubernetesApplication → K8sObject
  | raw : GVK → Json → K8sObject

/-- `GetObjectKind().GroupVersionKind()` for the modelled objects; typed
structs report their `TypeMeta`, a freshly built carrier reports none. -/
def K8sObject.objectKind : K8sObject → GVK
  | .deployment d => gvkFromAPIVersionAndKind d.apiVersion d.kind
  | .service s => gvkFromAPIVersionAndKind s.apiVersion s.kind
  | .kubeApp _ => ⟨"", "", ""⟩
  | .raw g _ => g

def encodeLabels (ls : List (String × String)) : Json :=
  .obj (ls.map fun kv => (kv.1, Json.str kv.2))

def encodeContainerPort (p : ContainerPort) : Json :=
  .obj [("name", .str p.name), ("containerPort", .num p.containerPort)]

def encodeContainer (c : Container) : Json :=
  .obj [("name", .str c.name), ("ports", .arr (c.ports.map encodeContainerPort))]

/-- `runtime.DefaultUnstructuredConverter.ToUnstructured` on a Deployment,
restricted to the modelled fields. -/
def encodeDeployment (d : Deployment) : Json :=
  .obj [("kind", .str d.kind), ("apiVersion", .str d.apiVersion),
    ("metadata", .obj [("name", .str d.name)]),
    ("spec", .obj
      ((match d.replicas with
        | some r => [("replicas", Json.num r)]
        | none => []) ++
       [("selector", .obj [("matchLabels", encodeLabels d.selectorMatchLabels)]),
        ("template", .obj
          [("metadata", .obj [("labels", encodeLabels d.templateLabels)]),
           ("spec", .obj [("containers", .arr (d.containers.map encodeContainer))])])]))]

def encodeServicePort (p : ServicePort) : Json :=
  .obj [("name", .str p.name), ("port", .num p.port), ("targetPort", .num p.targetPort)]

/-- `runtime.DefaultUnstructuredConverter.ToUnstructured` on a Service,
restricted to the modelled fields. -/
def encodeService (s : Service) : Json :=
  .obj [("kind", .str s.kind), ("apiVersion", .str s.apiVersion),
    ("metadata", .obj [("name", .str s.name), ("labels", encodeLabels s.labels)]),
    ("spec", .obj
      [("selector", encodeLabels s.selector),
       ("ports", .arr (s.ports.map encodeServicePort)),
       ("type", .str s.svcType)])]

def encodeOwnerReference (r : OwnerReference) : Json :=
  .obj [("name", .str r.name), ("uid", .str r.uid),
    ("controller", .bool r.controller),
    ("blockOwnerDeletion", .bool r.blockOwnerDeletion)]

def encodeResourceTemplate (t : ResourceTemplate) : Json :=
  .obj [("metadata", .obj [("name", .str t.name), ("labels", encodeLabels t.labels)]),
    ("spec", .obj [("template", t.template)])]

/-- `json.Marshal` of a whole KubernetesApplication (the merge-patch
document sent by the `patch` type in the earlier applicator). -/
def encodeKubeApp (a : KubernetesApplication) : Json :=
  .obj [("metadata", .obj
      [("name", .str a.name), ("namespace", .str a.nspace),
       ("ownerReferences", .arr (a.ownerRefs.map encodeOwnerReference))]),
    ("spec", .obj
      [("resourceSelector", .obj [("matchLabels", encodeLabels a.resourceSelector)]),
       ("resourceTemplates", .arr (a.resourceTemplates.map encodeResourceTemplate))])]

/-- Serialization of any pipeline object into an unstructured body. -/
def K8sObject.toUnstructured : K8sObject → Json
  | .deployment d => encodeDeployment d
  | .service s => encodeService s
  | .kubeApp a => encodeKubeApp a
  | .raw _ j => j

end OamRemote

namespace OamRemote

/-- The label key stamped on templates and selectors (`labelKey`). -/
def labelKey : String := "workload.oam.crossplane.io"

def deploymentKind : String := "Deployment"
def deploymentAPIVersion : String := "apps/v1"
def serviceKind : String := "Service"
def serviceAPIVersion : String := "v1"

/-- `deploymentGroupVersionKind` from `translate.go`. -/
def deploymentGroupVersionKind : GVK := ⟨"apps", "v1", "Deployment"⟩

def errWrapInKubeApp : String := "unable to wrap objects in KubernetesApplication"
def errInjectService : String := "unable to inject Service in objects"

/-- The Service built by `ServiceInjector` for one container port. -/
def mkService (w : Workload) (d : Deployment) (port : ContainerPort) : Service :=
  { kind := serviceKind, apiVersion := serviceAPIVersion,
    name := d.name,
    labels := [(labelKey, w.uid)],
    selector := d.selectorMatchLabels,
    ports := [{ name := d.name, port := 8080, targetPort := port.containerPort }],
    svcType := "LoadBalancer" }

/-- The Services `ServiceInjector` appends for one Deployment.  The
`serviceAdded` flag in the source is declared inside the container loop
and never set, so the per-Deployment break is dead code: one Service is
appended per container that declares at least one port, bound to that
container's first declared port. -/
def servicesForDeployment (w : Workload) (d : Deployment) : List Service :=
  d.containers.filterMap fun c =>
    match c.ports with
    | [] => none
    | port :: _ => some (mkService w d port)

/-- The injection loop of `ServiceInjector` over the original object
list: objects whose reported kind is not `apps/v1 Deployment` are
skipped; a matching kind that is not a typed Deployment fails the type
assertion. -/
def injectServices (w : Workload) : List K8sObject → Except String (List Service)
  | [] => .ok []
  | o :: os =>
      if o.objectKind = deploymentGroupVersionKind then
        match o with
        | .deployment d => do
            let rest ← injectServices w os
            .ok (servicesForDeployment w d ++ rest)
        | _ => .error errInjectService
      else injectServices w os

/-- `ServiceInjector`: a nil object list short-circuits; otherwise the
built Services are appended after the original objects (Go's `range`
iterates the original slice while `append` extends it). -/
def serviceInjector (w : Workload) (objs : Option (List K8sObject)) :
    Except String (Option (List K8sObject)) :=
  match objs with
  | none => .ok none
  | some os => do
      let svcs ← injectServices w os
      .ok (some (os ++ svcs.map K8sObject.service))

/-- `KubeAppWrapper` from `translate.go`: a nil list short-circuits;
otherwise every object is serialized into a resource template named
after the workload and labelled with its UID, and the carrier takes the
workload's name and namespace and a UID-label selector.  The source sets
no owner reference on the carrier (`meta.AddOwnerReference` is absent
from this revision). -/
def kubeAppWrapper (w : Workload) (objs : Option (List K8sObject)) :
    Except String (Option (List K8sObject)) :=
  match objs with
  | none => .ok none
  | some os =>
      let app : KubernetesApplication :=
        { name := w.name,
          nspace := w.nspace,
          ownerRefs := [],
          resourceSelector := [(labelKey, w.uid)],
          resourceTemplates := os.map fun o =>
            { name := w.name,
              labels := [(labelKey, w.uid)],
              template := o.toUnstructured } }
      .ok (some [K8sObject.kubeApp app])

/-- A `TranslateFn` (`translate.go`). -/
abbrev TranslateFn := Workload → Except String (Option (List K8sObject))

/-- A `TranslationWrapper` (`translate.go`). -/
abbrev TranslationWrapper :=
  Workload → Option (List K8sObject) → Except String (Option (List K8sObject))

/-- `NewObjectTranslatorWithWrappers`: translate, then apply each wrapper
in configured order, aborting on the first error. -/
def newObjectTranslatorWithWrappers (t : TranslateFn) (wp : List TranslationWrapper) :
    TranslateFn :=
  fun w => do
    let objs ← t w
    wp.foldlM (fun objs wrap => wrap w objs) objs

/-- `NoopTranslate`. -/
def noopTranslate : TranslateFn := fun _ => .ok none

end OamRemote

namespace OamRemote

/-- The identity key of the `template` index type in `apply.go`: the
embedded object's GroupVersionKind plus the template's metadata name. -/
abbrev TemplateKey := GVK × String

/-- The key of one resource template, as computed in `apply.go`. -/
def templateKey (t : ResourceTemplate) : TemplateKey :=
  (t.template.gvk, t.name)

/-- Insert into an association list, replacing an existing binding
(Go map assignment). -/
def indexInsert (ix : List (TemplateKey × Nat)) (k : TemplateKey) (i : Nat) :
    List (TemplateKey × Nat) :=
  match ix with
  | [] => [(k, i)]
  | (k', j) :: rest =>
      if k' = k then (k, i) :: rest else (k', j) :: indexInsert rest k i

def indexLookup (ix : List (TemplateKey × Nat)) (k : TemplateKey) : Option Nat :=
  match ix with
  | [] => none
  | (k', j) :: rest => if k' = k then some j else indexLookup rest k

/-- One pass of the index-building loop of `KubeAppApplyOption`
(`index[key] = i`), starting at position `i` with the bindings built so
far. -/
def buildIndexFrom (ix : List (TemplateKey × Nat)) (i : Nat) :
    List ResourceTemplate → List (TemplateKey × Nat)
  | [] => ix
  | t :: ts => buildIndexFrom (indexInsert ix (templateKey t) i) (i + 1) ts

/-- The desired-template index of `KubeAppApplyOption`, built by one pass
over the desired templates. -/
def buildIndex (ts : List ResourceTemplate) : List (TemplateKey × Nat) :=
  buildIndexFrom [] 0 ts

/-- Replace the element at one position of a list. -/
def modifyIdx (ts : List ResourceTemplate) (i : Nat) (f : ResourceTemplate → ResourceTemplate) :
    List ResourceTemplate :=
  match ts, i with
  | [], _ => []
  | t :: rest, 0 => f t :: rest
  | t :: rest, Nat.succ n => t :: modifyIdx rest n f

/-- The merge loop of `KubeAppApplyOption`: every stored template whose
key is in the desired index has its body merge-patched into the desired
template at the indexed position; stored templates with unknown keys are
skipped.  Marshal and unmarshal of the bodies are identities in this
model, so the loop is total. -/
def mergeTemplateStep (ix : List (TemplateKey × Nat))
    (acc : KubernetesApplication) (t : ResourceTemplate) : KubernetesApplication :=
  match indexLookup ix (templateKey t) with
  | none => acc
  | some i =>
      { acc with
          resourceTemplates := modifyIdx acc.resourceTemplates i (fun dt =>
            { dt with template := mergePatch t.template dt.template }) }

def kubeAppApplyOptionMerge (c d : KubernetesApplication) : KubernetesApplication :=
  c.resourceTemplates.foldl (mergeTemplateStep (buildIndex d.resourceTemplates)) d

def errNotKubeApp : String := "object is not a KubernetesApplication"

/-- `KubeAppApplyOption()`: fails unless both the current and desired
objects are KubernetesApplications, then rewrites the desired carrier's
template bodies in place. -/
def kubeAppApplyOption (current desired : K8sObject) : Except String K8sObject :=
  match current with
  | .kubeApp c =>
      match desired with
      | .kubeApp d => .ok (.kubeApp (kubeAppApplyOptionMerge c d))
      | _ => .error errNotKubeApp
  | _ => .error errNotKubeApp

end OamRemote

namespace OamRemote

/-- The `Synced` status condition of a trait or workload: at most one is
present, with reason `ReconcileSuccess` (Ready) or `ReconcileError`. -/
inductive SyncedCondition where
  | reconcileSuccess
  | reconcileError : String → SyncedCondition
deriving Repr, DecidableEq

/-- An OAM trait: object metadata, the workload reference, and the
status condition set. -/
structure Trait where
  name : String
  nspace : String
  workloadRefName : String
  synced : Option SyncedCondition
deriving Repr, DecidableEq

/-- Errors surfaced by `DeploymentFromKubeAppAccessor`, kept distinct so
that a modifier failure is never confused with the not-found signal. -/
inductive AccessorError where
  | notKubeApp
  | noDeploymentForTrait
  | conversion : String → AccessorError
  | modifyFailed : String → AccessorError
deriving Repr, DecidableEq

/-- The match condition of the accessor's template scan: the template's
metadata name equals the trait's workload-reference name and the
embedded body's kind is `Deployment`. -/
def matchesTrait (t : Trait) (r : ResourceTemplate) : Prop :=
  r.name = t.workloadRefName ∧ r.template.gvk.kind = deploymentKind

instance (t : Trait) : DecidablePred (matchesTrait t) := by
  intro r
  unfold matchesTrait
  infer_instance

/-- The template scan of `DeploymentFromKubeAppAccessor`: find the first
template whose metadata name equals the trait's workload-reference name
and whose embedded body's kind is `Deployment`; deserialize it, run the
modifier, re-serialize, and overwrite that template in place, returning
immediately.  `fromU` and `toU` stand for the unstructured converter. -/
def modifyMatchingTemplate (fromU : Json → Except String Deployment)
    (toU : Deployment → Json) (t : Trait)
    (m : Deployment → Trait → Except String Deployment) :
    List ResourceTemplate → Except AccessorError (List ResourceTemplate)
  | [] => .error .noDeploymentForTrait
  | r :: rest =>
      if matchesTrait t r then
        match fromU r.template with
        | .error e => .error (.conversion e)
        | .ok d =>
            match m d t with
            | .error e => .error (.modifyFailed e)
            | .ok d' => .ok ({ r with template := toU d' } :: rest)
      else
        match modifyMatchingTemplate fromU toU t m rest with
        | .error e => .error e
        | .ok rest' => .ok (r :: rest')

def errNotKubeAppAccessor : String :=
  "object passed to KubernetesApplication accessor is not KubernetesApplication"
def errNoDeploymentForTrait : String :=
  "no deployment found for trait in KubernetesApplication"

/-- `DeploymentFromKubeAppAccessor` (`modify.go`): fails on a non-carrier
object; otherwise rewrites the first matching resource template.  Only
the template array entry found by the scan is written; the carrier's
other fields are untouched. -/
def deploymentFromKubeAppAccessor (fromU : Json → Except String Deployment)
    (toU : Deployment → Json) (obj : K8sObject) (t : Trait)
    (m : Deployment → Trait → Except String Deployment) :
    Except AccessorError K8sObject :=
  match obj with
  | .kubeApp a =>
      match modifyMatchingTemplate fromU toU t m a.resourceTemplates with
      | .error e => .error e
      | .ok ts => .ok (.kubeApp { a with resourceTemplates := ts })
  | _ => .error .notKubeApp

end OamRemote

namespace OamRemote

/-- `metav1.GetControllerOf`: the first owner reference flagged as
controller. -/
def getControllerOf (refs : List OwnerReference) : Option OwnerReference :=
  refs.find? (·.controller)

/-- `meta.HaveSameController`: true only when both objects have a
controller reference and the two controllers share a UID; two objects
without any controller do not have the same controller. -/
def haveSameController (a b : KubernetesApplication) : Bool :=
  match getControllerOf a.ownerRefs, getControllerOf b.ownerRefs with
  | some ac, some bc => ac.uid == bc.uid
  | _, _ => false

mutual
/-- `mergo.Merge` of a source unstructured body into a destination body
(default options): destination fields are kept, fields missing from the
destination are filled in from the source, and nested objects merge
recursively.  Mergo's zero-value refinements are not modelled; no claim
depends on them. -/
def mergoMerge : Json → Json → Json
  | .obj dfs, .obj sfs => .obj (mergoFields dfs sfs)
  | dst, _ => dst

/-- Fold the source bindings into the destination field list. -/
def mergoFields (dfs : List (String × Json)) : List (String × Json) → List (String × Json)
  | [] => dfs
  | (k, v) :: sfs =>
      match lookupField dfs k with
      | none => mergoFields (dfs ++ [(k, v)]) sfs
      | some dv => mergoFields (setField dfs k (mergoMerge dv v)) sfs
end

/-- Key of a carrier in the store: name and namespace. -/
abbrev StoreKey := String × String

/-- A mutating call issued to the store client by `KubeAppApply`. -/
inductive ClientCall where
  | create : KubernetesApplication → ClientCall
  | patch : StoreKey → Json → ClientCall

/-- The remote store, holding the marshalled form of each object. -/
abbrev Store := List (StoreKey × Json)

def storeLookup (s : Store) (k : StoreKey) : Option Json :=
  match s with
  | [] => none
  | (k', j) :: rest => if k' = k then some j else storeLookup rest k

def storePut (s : Store) (k : StoreKey) (j : Json) : Store :=
  match s with
  | [] => [(k, j)]
  | (k', j') :: rest => if k' = k then (k, j) :: rest else (k', j') :: storePut rest k j

/-- The store client's contract from the spec: `Create` stores the
marshalled object, `Patch` applies an RFC 7386 merge patch to the stored
document (and changes nothing when the target is absent). -/
def runClientCalls (s : Store) : List ClientCall → Store
  | [] => s
  | .create a :: rest => runClientCalls (storePut s (a.name, a.nspace) (encodeKubeApp a)) rest
  | .patch k doc :: rest =>
      match storeLookup s k with
      | none => runClientCalls s rest
      | some j => runClientCalls (storePut s k (mergePatch j doc)) rest

def errCreateKubeApp : String := "cannot create KubernetesApplication"
def errGetKubeApp : String := "cannot get KubernetesApplication"
def errDiffController : String :=
  "existing KubernetesApplication has a different (or no) controller"
def errMergeKubeAppTemplates : String :=
  "cannot merge KubernetesApplicationResourceTemplates"
def errIndexOutOfRange : String := "index out of range"

/-- The outcome of fetching the stored carrier, injected as in the
repo's own unit tests (`test.MockClient`). -/
inductive GetOutcome where
  | notFound : GetOutcome
  | found : KubernetesApplication → GetOutcome

/-- The positional merge loop of the earlier `KubeAppApply`: stored
template `i` is merged (via mergo, no overwrite) into desired template
`i` only when the two agree on GroupVersionKind and name.  Indexing the
desired array beyond its length panics in Go; that is modelled as an
error. -/
def kubeAppApplyMergeLoop (stored : List ResourceTemplate) (i : Nat)
    (desired : KubernetesApplication) : Except String KubernetesApplication :=
  match stored with
  | [] => .ok desired
  | temp :: rest =>
      match desired.resourceTemplates.get? i with
      | none => .error errIndexOutOfRange
      | some dt =>
          if dt.template.gvk = temp.template.gvk ∧ dt.name = temp.name then
            kubeAppApplyMergeLoop rest (i + 1)
              { desired with
                  resourceTemplates := modifyIdx desired.resourceTemplates i (fun d =>
                    { d with template := mergoMerge d.template temp.template }) }
          else
            kubeAppApplyMergeLoop rest (i + 1) desired

/-- The earlier `KubeAppApply` applicator: create the carrier when the
stored one is absent; otherwise require matching controllers when asked,
merge stored templates into the desired ones positionally, and submit
the desired document as a merge patch.  The client is modelled by the
injected get outcome plus the returned list of mutating calls. -/
def kubeAppApply (get : GetOutcome) (m : KubernetesApplication)
    (controllersMustMatch : Bool) : List ClientCall × Except String Unit :=
  let desired := m
  match get with
  | .notFound => ([ClientCall.create m], .ok ())
  | .found stored =>
      if controllersMustMatch ∧ haveSameController stored desired = false then
        ([], .error errDiffController)
      else
        match kubeAppApplyMergeLoop stored.resourceTemplates 0 desired with
        | .error e => ([], .error e)
        | .ok desired' =>
            ([ClientCall.patch (m.name, m.nspace) (encodeKubeApp desired')], .ok ())

end OamRemote

namespace OamRemote

/-- `shortWait` (seconds). -/
def shortWait : Nat := 30
/-- `longWait` (seconds). -/
def longWait : Nat := 60

/-- Outcome of a client fetch, injected per attempt. -/
inductive FetchOutcome (α : Type) where
  | ok : α → FetchOutcome α
  | notFound : FetchOutcome α
  | failed : String → FetchOutcome α

/-- What one trait-reconcile attempt produces: the requeue request
(`none` models `reconcile.Result{}`, a clean termination) and the trait
object handed to `Status().Update` (`none` when no update is attempted).
Status updates are taken to succeed; the wrapped status-update error
returned to the scheduler is therefore not modelled. -/
structure TraitReconcileOutcome where
  requeueAfter : Option Nat
  statusWrite : Option Trait
deriving Repr, DecidableEq

/-- One attempt of the trait `Reconciler.Reconcile`, with the fetch
outcomes and the modify and apply stages injected.  On the all-success
path the source requeues after `longWait` and updates status, but the
`SetConditions(v1alpha1.ReconcileSuccess())` call there is commented
out, so the fetched trait's conditions are written back unchanged. -/
def traitReconcile (getTrait : FetchOutcome Trait)
    (getPack : FetchOutcome KubernetesApplication)
    (modify : KubernetesApplication → Trait → Except String KubernetesApplication)
    (applyPack : KubernetesApplication → Except String Unit) :
    TraitReconcileOutcome :=
  match getTrait with
  | .notFound => { requeueAfter := none, statusWrite := none }
  | .failed _ => { requeueAfter := none, statusWrite := none }
  | .ok trait =>
      match getPack with
      | .notFound =>
          { requeueAfter := some shortWait,
            statusWrite := some { trait with synced := some .reconcileSuccess } }
      | .failed e =>
          { requeueAfter := some shortWait,
            statusWrite := some { trait with synced := some (.reconcileError e) } }
      | .ok pack =>
          match modify pack trait with
          | .error e =>
              { requeueAfter := some shortWait,
                statusWrite := some { trait with synced := some (.reconcileError e) } }
          | .ok pack' =>
              match applyPack pack' with
              | .error e =>
                  { requeueAfter := some shortWait,
                    statusWrite := some { trait with synced := some (.reconcileError e) } }
              | .ok _ =>
                  { requeueAfter := some longWait,
                    statusWrite := some trait }

end OamRemote

namespace OamRemote

/-! Concrete fixtures, mirroring the repository's unit-test inputs. -/

/-- The workload used throughout the repo's tests. -/
def wTest : Workload :=
  { name := "test-workload", nspace := "test-namespace",
    uid := "a-very-unique-identifier", gvk := ⟨"core.oam.dev", "v1alpha2", "ContainerizedWorkload"⟩ }

/-- A container named as in the tests, with the given ports. -/
def containerWithPorts (nm : String) (ports : List Int) : Container :=
  { name := nm, ports := ports.map fun p => { name := "test-port", containerPort := p } }

/-- The test Deployment skeleton, with the given containers. -/
def deploymentWith (cs : List Container) : Deployment :=
  { kind := "Deployment", apiVersion := "apps/v1", name := "test-workload",
    replicas := none,
    selectorMatchLabels := [(labelKey, "a-very-unique-identifier")],
    templateLabels := [(labelKey, "a-very-unique-identifier")],
    containers := cs }

/-- A deployment with two containers, each declaring two ports. -/
def dTwoContainers : Deployment :=
  deploymentWith [containerWithPorts "c1" [3000, 3001], containerWithPorts "c2" [4000, 4001]]

/-- An embedded Deployment body with optional replicas and a ports array. -/
def tmplBody (r : Option Int) (ports : List Int) : Json :=
  .obj ([("kind", Json.str "Deployment"), ("apiVersion", Json.str "apps/v1")] ++
    (match r with | some n => [("replicas", Json.num n)] | none => []) ++
    [("ports", Json.arr (ports.map Json.num))])

/-- A carrier with the given owner references and templates. -/
def mkKubeApp (refs : List OwnerReference) (ts : List ResourceTemplate) :
    KubernetesApplication :=
  { name := "test-workload", nspace := "test-namespace",
    ownerRefs := refs, resourceSelector := [(labelKey, "a-very-unique-identifier")],
    resourceTemplates := ts }

def ownerA : OwnerReference :=
  { name := "owner-a", uid := "uid-a", controller := true, blockOwnerDeletion := true }
def ownerB : OwnerReference :=
  { name := "owner-b", uid := "uid-b", controller := true, blockOwnerDeletion := true }

/-- Stored carrier: one template `cool-temp` with `replicas: 3`, `ports: [80]`. -/
def appStored : KubernetesApplication :=
  mkKubeApp [ownerA] [{ name := "cool-temp", labels := [], template := tmplBody (some 3) [80] }]

/-- Desired carrier: an unrelated template first, then `cool-temp` without
replicas and with `ports: [80, 81]`. -/
def appDesired : KubernetesApplication :=
  mkKubeApp [ownerA]
    [{ name := "other-temp", labels := [], template := tmplBody none [99] },
     { name := "cool-temp", labels := [], template := tmplBody none [80, 81] }]

/-- The trait fixture, referencing the test workload. -/
def traitTest : Trait :=
  { name := "test-trait", nspace := "test-namespace",
    workloadRefName := "test-workload", synced := none }

/-- A carrier holding a non-matching template followed by the trait's
target Deployment template (and a further matching one, for the frame
property). -/
def carrierTest : KubernetesApplication :=
  mkKubeApp [ownerA]
    [{ name := "other-temp", labels := [], template := tmplBody none [1] },
     { name := "test-workload", labels := [(labelKey, "a-very-unique-identifier")],
       template := encodeDeployment (deploymentWith [containerWithPorts "c1" [80]]) },
     { name := "test-workload", labels := [], template := tmplBody (some 9) [2] }]

/-- A trivial modifier fixture: set the replica count to 5. -/
def scaleTo5 (d : Deployment) (_ : Trait) : Except String Deployment :=
  .ok { d with replicas := some 5 }

/-- A converter fixture standing for `FromUnstructured`: always yields
the plain test Deployment. -/
def fromUTest (_ : Json) : Except String Deployment :=
  .ok (deploymentWith [containerWithPorts "c1" [80]])

/-- The deployment produced by `scaleTo5` on the accessor fixture. -/
def dScaled : Deployment :=
  { deploymentWith [containerWithPorts "c1" [80]] with replicas := some 5 }

/-- The stored `cool-temp` template of `appStored`. -/
def tmplStoredCool : ResourceTemplate :=
  { name := "cool-temp", labels := [], template := tmplBody (some 3) [80] }

/-- The desired `cool-temp` template of `appDesired` (index 1). -/
def tmplDesiredCool : ResourceTemplate :=
  { name := "cool-temp", labels := [], template := tmplBody none [80, 81] }

end OamRemote

namespace OamRemote

theorem Json.isNull_eq_false {v : Json} (h : v ≠ Json.null) : v.isNull = false := by
  cases v <;> simp_all [Json.isNull]

theorem lookupField_setField_self (fs : List (String × Json)) (k : String) (v : Json) :
    lookupField (setField fs k v) k = some v := by
  induction fs with
  | nil => simp [setField, lookupField]
  | cons hd tl ih =>
      obtain ⟨k', w⟩ := hd
      by_cases h : k' = k
      · simp [setField, h, lookupField]
      · simp [setField, h, lookupField, ih]

theorem lookupField_setField_ne (fs : List (String × Json)) (k k' : String) (v : Json)
    (h : k ≠ k') : lookupField (setField fs k v) k' = lookupField fs k' := by
  induction fs with
  | nil => simp [setField, lookupField, h]
  | cons hd tl ih =>
      obtain ⟨k₀, w⟩ := hd
      by_cases h₀ : k₀ = k
      · subst h₀; simp [setField, lookupField, h]
      · simp [setField, h₀, lookupField, ih]

theorem lookupField_removeField_ne (fs : List (String × Json)) (k k' : String)
    (h : k ≠ k') : lookupField (removeField fs k) k' = lookupField fs k' := by
  induction fs with
  | nil => simp [removeField]
  | cons hd tl ih =>
      obtain ⟨k₀, w⟩ := hd
      by_cases h₀ : k₀ = k
      · subst h₀
        simp [removeField, lookupField, h, ih]
      · simp [removeField, h₀, lookupField, ih]

/-- A key the patch does not mention keeps its target binding. -/
theorem mergeFields_not_mentioned (pfs tfs : List (String × Json)) (k : String)
    (h : lookupField pfs k = none) :
    lookupField (mergeFields tfs pfs) k = lookupField tfs k := by
  induction pfs generalizing tfs with
  | nil => simp [mergeFields]
  | cons hd tl ih =>
      obtain ⟨k', v⟩ := hd
      have hne : k' ≠ k := by
        intro hk
        simp [lookupField, hk] at h
      rw [lookupField] at h
      simp [hne] at h
      rw [mergeFields]
      by_cases hv : v.isNull
      · rw [if_pos hv, ih _ h, lookupField_removeField_ne _ _ _ hne]
      · rw [if_neg hv, ih _ h, lookupField_setField_ne _ _ _ _ hne]

theorem lookupField_none_of_not_mem (fs : List (String × Json)) (k : String)
    (h : k ∉ fs.map Prod.fst) : lookupField fs k = none := by
  induction fs with
  | nil => simp [lookupField]
  | cons hd tl ih =>
      obtain ⟨k', v⟩ := hd
      simp only [List.map_cons, List.mem_cons] at h
      push_neg at h
      have hne : k' ≠ k := fun hk => h.1 hk.symm
      simp [lookupField, hne, ih h.2]

/-- A non-null binding in a patch with distinct keys produces exactly the
merge of the target's old value (or `null` if absent) with the patch
value. -/
theorem mergeFields_mentioned (pfs tfs : List (String × Json)) (k : String) (v : Json)
    (hnodup : (pfs.map Prod.fst).Nodup)
    (h : lookupField pfs k = some v) (hv : v ≠ .null) :
    lookupField (mergeFields tfs pfs) k =
      some (mergePatch ((lookupField tfs k).getD Json.null) v) := by
  induction pfs generalizing tfs with
  | nil => simp [lookupField] at h
  | cons hd tl ih =>
      obtain ⟨k', w⟩ := hd
      simp only [List.map_cons, List.nodup_cons] at hnodup
      by_cases hk : k' = k
      · subst hk
        rw [lookupField] at h
        simp at h
        subst h
        have htl : lookupField tl k' = none :=
          lookupField_none_of_not_mem _ _ hnodup.1
        rw [mergeFields, if_neg (by simp [Json.isNull_eq_false hv]),
          mergeFields_not_mentioned _ _ _ htl, lookupField_setField_self]
      · rw [lookupField] at h
        simp [hk] at h
        rw [mergeFields]
        by_cases hw : w.isNull
        · rw [if_pos hw, ih _ hnodup.2 h, lookupField_removeField_ne _ _ _ hk]
        · rw [if_neg hw, ih _ hnodup.2 h, lookupField_setField_ne _ _ _ _ hk]


end OamRemote

namespace OamRemote

/-- C3: when the controller-match option is enabled and a stored carrier
exists whose controlling owner differs from (or is absent compared to)
the desired carrier's, `KubeAppApply` returns the controller-conflict
error and issues no Create and no Patch call, so running its client
calls leaves any store unchanged. -/
theorem kubeAppApply_controllerConflict_stateUnchanged (s : Store)
    (stored m : KubernetesApplication)
    (h : haveSameController stored m = false) :
    kubeAppApply (.found stored) m true = ([], .error errDiffController) ∧
    runClientCalls s (kubeAppApply (.found stored) m true).1 = s := by
  have heq : kubeAppApply (.found stored) m true = ([], .error errDiffController) := by
    simp [kubeAppApply, h]
  exact ⟨heq, by rw [heq]; rfl⟩

/-- Witness for C3: carriers controlled by different owners. -/
theorem kubeAppApply_controllerConflict_witness :
    haveSameController (mkKubeApp [ownerA] []) (mkKubeApp [ownerB] []) = false ∧
    (kubeAppApply (.found (mkKubeApp [ownerA] [])) (mkKubeApp [ownerB] []) true =
       ([], .error errDiffController) ∧
     runClientCalls [] (kubeAppApply (.found (mkKubeApp [ownerA] []))
       (mkKubeApp [ownerB] []) true).1 = []) :=
  ⟨rfl, kubeAppApply_controllerConflict_stateUnchanged [] _ _ rfl⟩

/-- C5: on an attempt where the trait fetch, the carrier fetch, the
modification and the apply all succeed, the trait reconciler requeues
after the long wait but does not set the trait's Ready condition: the
`SetConditions(v1alpha1.ReconcileSuccess())` call on the success path is
commented out in the source, so the trait is written back with its
conditions untouched (here: still none). -/
theorem traitReconcile_success_requeues_but_sets_no_condition :
    traitReconcile (.ok traitTest) (.ok (mkKubeApp [ownerA] []))
        (fun p _ => .ok p) (fun _ => .ok ()) =
      { requeueAfter := some longWait, statusWrite := some traitTest } ∧
    traitTest.synced = none :=
  ⟨rfl, rfl⟩

/-- C7: at the unit test's input, `KubeAppWrapper` produces a carrier
with the workload's name and namespace and the UID-label selector, but
with an empty owner-reference list: no controller owner reference is
set, contradicting the repo's own `TestKubeAppWrapper` expectation of a
controller reference to the workload. -/
theorem kubeAppWrapper_sets_no_owner_reference :
    ∃ a, kubeAppWrapper wTest (some [K8sObject.deployment (deploymentWith [])]) =
        .ok (some [K8sObject.kubeApp a]) ∧
      a.name = "test-workload" ∧ a.nspace = "test-namespace" ∧
      a.resourceSelector = [(labelKey, "a-very-unique-identifier")] ∧
      a.resourceTemplates.map ResourceTemplate.name = ["test-workload"] ∧
      a.resourceTemplates.map ResourceTemplate.labels =
        [[(labelKey, "a-very-unique-identifier")]] ∧
      a.ownerRefs = [] :=
  ⟨_, rfl, rfl, rfl, rfl, rfl, rfl, rfl⟩

/-- C8 counterexample: an empty-but-non-nil object list is not
short-circuited; `KubeAppWrapper` produces a carrier (with zero
templates) instead of returning (nil, nil). -/
theorem kubeAppWrapper_empty_list_not_nil :
    kubeAppWrapper wTest (some []) ≠ .ok none := by
  intro h
  simp [kubeAppWrapper] at h

/-- C8 amended: a nil object list short-circuits both the carrier
wrapper and the discovery injector to (nil, nil), producing no object. -/
theorem wrappers_nil_short_circuit (w : Workload) :
    kubeAppWrapper w none = .ok none ∧ serviceInjector w none = .ok none :=
  ⟨rfl, rfl⟩

/-- C9: the composed translator — translate, then `ServiceInjector`,
then `KubeAppWrapper` — is deterministic: equal workload values give
equal output object lists, serialized resource-template bodies included;
the embedded pipeline is a pure function of the workload value. -/
theorem translateWrap_deterministic (t : TranslateFn) (w w' : Workload) (h : w = w') :
    newObjectTranslatorWithWrappers t [serviceInjector, kubeAppWrapper] w =
      newObjectTranslatorWithWrappers t [serviceInjector, kubeAppWrapper] w' := by
  rw [h]

/-- Witness for C9: the test workload with a translator emitting one
Deployment. -/
theorem translateWrap_deterministic_witness :
    wTest = wTest ∧
    newObjectTranslatorWithWrappers
        (fun _ => .ok (some [K8sObject.deployment dTwoContainers]))
        [serviceInjector, kubeAppWrapper] wTest =
      newObjectTranslatorWithWrappers
        (fun _ => .ok (some [K8sObject.deployment dTwoContainers]))
        [serviceInjector, kubeAppWrapper] wTest :=
  ⟨rfl, translateWrap_deterministic _ wTest wTest rfl⟩

end OamRemote

namespace OamRemote

theorem modifyIdx_length (ts : List ResourceTemplate) (i : Nat)
    (f : ResourceTemplate → ResourceTemplate) :
    (modifyIdx ts i f).length = ts.length := by
  induction ts generalizing i with
  | nil => rfl
  | cons t rest ih =>
      cases i with
      | zero => rfl
      | succ n => simp [modifyIdx, ih]

theorem modifyIdx_get?_self (ts : List ResourceTemplate) (i : Nat)
    (f : ResourceTemplate → ResourceTemplate) (x : ResourceTemplate)
    (h : ts.get? i = some x) :
    (modifyIdx ts i f).get? i = some (f x) := by
  induction ts generalizing i with
  | nil => simp [List.get?] at h
  | cons t rest ih =>
      cases i with
      | zero =>
          simp [List.get?] at h
          subst h
          rfl
      | succ n =>
          simp only [List.get?] at h
          simpa [modifyIdx, List.get?] using ih n h

theorem modifyIdx_get?_ne (ts : List ResourceTemplate) (i j : Nat)
    (f : ResourceTemplate → ResourceTemplate) (h : j ≠ i) :
    (modifyIdx ts i f).get? j = ts.get? j := by
  induction ts generalizing i j with
  | nil => rfl
  | cons t rest ih =>
      cases i with
      | zero =>
          cases j with
          | zero => exact absurd rfl h
          | succ n => rfl
      | succ n =>
          cases j with
          | zero => rfl
          | succ k =>
              simpa [modifyIdx, List.get?] using ih n k (fun hh => h (by rw [hh]))

/-- The scan returns the not-found error exactly when no template
matches the trait. -/
theorem modifyMatchingTemplate_notFound_iff
    (fromU : Json → Except String Deployment) (toU : Deployment → Json) (tr : Trait)
    (m : Deployment → Trait → Except String Deployment) (ts : List ResourceTemplate) :
    modifyMatchingTemplate fromU toU tr m ts = .error .noDeploymentForTrait ↔
      ∀ r ∈ ts, ¬ matchesTrait tr r := by
  induction ts with
  | nil => simp [modifyMatchingTemplate]
  | cons r rest ih =>
      rw [modifyMatchingTemplate]
      by_cases hm : matchesTrait tr r
      · rw [if_pos hm]
        simp only [List.mem_cons]
        constructor
        · intro h
          exfalso
          cases hfu : fromU r.template with
          | error e => simp [hfu] at h
          | ok d =>
              cases hmo : m d tr with
              | error e => simp [hfu, hmo] at h
              | ok d' => simp [hfu, hmo] at h
        · intro h
          exact absurd hm (h r (Or.inl rfl))
      · rw [if_neg hm]
        cases hrec : modifyMatchingTemplate fromU toU tr m rest with
        | error e =>
            rw [hrec] at ih
            simp only [List.mem_cons]
            constructor
            · intro h
              have he : e = .noDeploymentForTrait := by simpa using h
              intro r' hr'
              rcases hr' with h1 | h2
              · subst h1; exact hm
              · exact (ih.mp (by rw [he])) r' h2
            · intro h
              exact ih.mpr fun r' hr' => h r' (Or.inr hr')
        | ok rest' =>
            rw [hrec] at ih
            simp only [List.mem_cons]
            constructor
            · intro h
              simp at h
            · intro h
              exact absurd (ih.mpr fun r' hr' => h r' (Or.inr hr')) (by simp)

/-- The scan rewrites exactly the first matching template, in place. -/
theorem modifyMatchingTemplate_first
    (fromU : Json → Except String Deployment) (toU : Deployment → Json) (tr : Trait)
    (m : Deployment → Trait → Except String Deployment) (ts : List ResourceTemplate)
    (i : Nat) (dt : ResourceTemplate) (d d' : Deployment)
    (hget : ts.get? i = some dt)
    (hfirst : ∀ r ∈ ts.take i, ¬ matchesTrait tr r)
    (hm : matchesTrait tr dt)
    (hfu : fromU dt.template = .ok d) (hmo : m d tr = .ok d') :
    modifyMatchingTemplate fromU toU tr m ts =
      .ok (modifyIdx ts i (fun r => { r with template := toU d' })) := by
  induction ts generalizing i with
  | nil => simp [List.get?] at hget
  | cons r rest ih =>
      cases i with
      | zero =>
          simp [List.get?] at hget
          subst hget
          rw [modifyMatchingTemplate, if_pos hm]
          simp [hfu, hmo, modifyIdx]
      | succ n =>
          have hr : ¬ matchesTrait tr r := hfirst r (by simp [List.take_succ_cons])
          rw [modifyMatchingTemplate, if_neg hr]
          have hrest : ∀ x ∈ rest.take n, ¬ matchesTrait tr x := fun x hx =>
            hfirst x (by simp [List.take_succ_cons]; exact Or.inr hx)
          simp only [List.get?] at hget
          rw [ih n hget hrest]
          simp [modifyIdx]

end OamRemote

namespace OamRemote

/-- C6: `DeploymentFromKubeAppAccessor` returns the not-found-for-trait
error exactly when no resource template in the carrier matches the
trait's workload-reference name with kind Deployment; when the first
matching template deserializes and the modifier succeeds, that template
is overwritten in place with the re-serialized modified object and no
error is returned; a non-carrier input fails with the wrong-carrier-type
error. -/
theorem deploymentFromKubeAppAccessor_spec
    (fromU : Json → Except String Deployment) (toU : Deployment → Json)
    (a : KubernetesApplication) (tr : Trait)
    (m : Deployment → Trait → Except String Deployment) :
    (deploymentFromKubeAppAccessor fromU toU (.kubeApp a) tr m =
        .error .noDeploymentForTrait ↔
      ∀ r ∈ a.resourceTemplates, ¬ matchesTrait tr r) ∧
    (∀ i dt d d', a.resourceTemplates.get? i = some dt →
      (∀ r ∈ a.resourceTemplates.take i, ¬ matchesTrait tr r) →
      matchesTrait tr dt → fromU dt.template = .ok d → m d tr = .ok d' →
      deploymentFromKubeAppAccessor fromU toU (.kubeApp a) tr m =
        .ok (.kubeApp { a with
          resourceTemplates := modifyIdx a.resourceTemplates i (fun r =>
            { r with template := toU d' }) })) ∧
    (∀ g body, deploymentFromKubeAppAccessor fromU toU (.raw g body) tr m =
      .error .notKubeApp) := by
  refine ⟨?_, ?_, fun g body => rfl⟩
  · rw [deploymentFromKubeAppAccessor, ← modifyMatchingTemplate_notFound_iff fromU toU tr m]
    cases hrec : modifyMatchingTemplate fromU toU tr m a.resourceTemplates with
    | error e => simp
    | ok ts => simp
  · intro i dt d d' hget hfirst hm hfu hmo
    rw [deploymentFromKubeAppAccessor,
      modifyMatchingTemplate_first fromU toU tr m _ i dt d d' hget hfirst hm hfu hmo]

/-- Witness for C6 at the carrier fixture: the first matching template
is at index 1 and is rewritten with the rescaled Deployment. -/
theorem deploymentFromKubeAppAccessor_spec_witness :
    deploymentFromKubeAppAccessor fromUTest encodeDeployment (.kubeApp carrierTest)
        traitTest scaleTo5 =
      .ok (.kubeApp { carrierTest with
        resourceTemplates := modifyIdx carrierTest.resourceTemplates 1 (fun r =>
          { r with template := encodeDeployment dScaled }) }) :=
  (deploymentFromKubeAppAccessor_spec fromUTest encodeDeployment carrierTest
      traitTest scaleTo5).2.1
    1 _ (deploymentWith [containerWithPorts "c1" [80]]) dScaled
    rfl (by decide) (by decide) rfl rfl

/-- C10: a successful accessor call rewrites only the template at the
first matching index; every other template (including the later one that
also matches) and every non-template field of the carrier are left
unchanged. -/
theorem deploymentFromKubeAppAccessor_frame
    (fromU : Json → Except String Deployment) (toU : Deployment → Json)
    (a : KubernetesApplication) (tr : Trait)
    (m : Deployment → Trait → Except String Deployment)
    (i : Nat) (dt : ResourceTemplate) (d d' : Deployment)
    (hget : a.resourceTemplates.get? i = some dt)
    (hfirst : ∀ r ∈ a.resourceTemplates.take i, ¬ matchesTrait tr r)
    (hm : matchesTrait tr dt)
    (hfu : fromU dt.template = .ok d) (hmo : m d tr = .ok d') :
    ∃ a', deploymentFromKubeAppAccessor fromU toU (.kubeApp a) tr m =
        .ok (.kubeApp a') ∧
      a'.name = a.name ∧ a'.nspace = a.nspace ∧ a'.ownerRefs = a.ownerRefs ∧
      a'.resourceSelector = a.resourceSelector ∧
      a'.resourceTemplates.length = a.resourceTemplates.length ∧
      a'.resourceTemplates.get? i = some { dt with template := toU d' } ∧
      ∀ j, j ≠ i → a'.resourceTemplates.get? j = a.resourceTemplates.get? j := by
  refine ⟨{ a with
      resourceTemplates := modifyIdx a.resourceTemplates i (fun r =>
        { r with template := toU d' }) }, ?_, rfl, rfl, rfl, rfl, ?_, ?_, ?_⟩
  · rw [deploymentFromKubeAppAccessor,
      modifyMatchingTemplate_first fromU toU tr m _ i dt d d' hget hfirst hm hfu hmo]
  · exact modifyIdx_length _ _ _
  · exact modifyIdx_get?_self _ _ _ _ hget
  · intro j hj
    exact modifyIdx_get?_ne _ _ _ _ hj

/-- Witness for C10 at the carrier fixture, whose index-2 template also
matches the trait but is left untouched. -/
theorem deploymentFromKubeAppAccessor_frame_witness :
    ∃ a', deploymentFromKubeAppAccessor fromUTest encodeDeployment (.kubeApp carrierTest)
        traitTest scaleTo5 = .ok (.kubeApp a') ∧
      a'.name = carrierTest.name ∧ a'.nspace = carrierTest.nspace ∧
      a'.ownerRefs = carrierTest.ownerRefs ∧
      a'.resourceSelector = carrierTest.resourceSelector ∧
      a'.resourceTemplates.length = carrierTest.resourceTemplates.length ∧
      a'.resourceTemplates.get? 1 =
        some { name := "test-workload", labels := [(labelKey, "a-very-unique-identifier")],
               template := encodeDeployment dScaled } ∧
      ∀ j, j ≠ 1 → a'.resourceTemplates.get? j = carrierTest.resourceTemplates.get? j :=
  deploymentFromKubeAppAccessor_frame fromUTest encodeDeployment carrierTest
    traitTest scaleTo5 1 _ (deploymentWith [containerWithPorts "c1" [80]]) dScaled
    rfl (by decide) (by decide) rfl rfl

end OamRemote

namespace OamRemote

/-- C4 counterexample: one Deployment with two port-declaring containers
receives two injected Services — one per container, bound to ports 3000
and 4000 — not at most one per Deployment.  This matches the repo's own
`TestServiceInjector` expectation (case 2D_2C_2P): the `serviceAdded`
flag that would stop after the first container is never set. -/
theorem serviceInjector_two_services_for_one_deployment :
    serviceInjector wTest (some [K8sObject.deployment dTwoContainers]) =
      .ok (some [K8sObject.deployment dTwoContainers,
        K8sObject.service (mkService wTest dTwoContainers
          { name := "test-port", containerPort := 3000 }),
        K8sObject.service (mkService wTest dTwoContainers
          { name := "test-port", containerPort := 4000 })]) :=
  rfl

theorem servicesForDeployment_aux_length (w : Workload) (d : Deployment)
    (cs : List Container) :
    (cs.filterMap (fun c => match c.ports with
      | [] => none
      | port :: _ => some (mkService w d port))).length =
    (cs.filter (fun c => !c.ports.isEmpty)).length := by
  induction cs with
  | nil => rfl
  | cons c rest ih =>
      cases hp : c.ports with
      | nil => simpa [List.filterMap_cons, List.filter_cons, hp] using ih
      | cons p ps => simpa [List.filterMap_cons, List.filter_cons, hp] using ih

/-- C4 amended: the discovery injector appends, for every object of
Deployment kind, exactly one Service per container that declares at
least one port — bound to that container's first declared port — and a
Deployment with no ports in any container yields no Service. -/
theorem serviceInjector_per_container (w : Workload) (d : Deployment)
    (hk : gvkFromAPIVersionAndKind d.apiVersion d.kind = deploymentGroupVersionKind) :
    serviceInjector w (some [K8sObject.deployment d]) =
      .ok (some (K8sObject.deployment d ::
        (servicesForDeployment w d).map K8sObject.service)) ∧
    (servicesForDeployment w d).length =
      (d.containers.filter (fun c => !c.ports.isEmpty)).length ∧
    (∀ c ∈ d.containers, ∀ p ps, c.ports = p :: ps →
      mkService w d p ∈ servicesForDeployment w d) ∧
    ((∀ c ∈ d.containers, c.ports = []) → servicesForDeployment w d = []) := by
  refine ⟨?_, ?_, ?_, ?_⟩
  · simp [serviceInjector, injectServices, K8sObject.objectKind, hk, bind, Except.bind]
  · exact servicesForDeployment_aux_length w d d.containers
  · intro c hc p ps hp
    unfold servicesForDeployment
    exact List.mem_filterMap.mpr ⟨c, hc, by rw [hp]⟩
  · intro h
    unfold servicesForDeployment
    exact List.filterMap_eq_nil_iff.mpr fun c hc => by rw [h c hc]

/-- Witness for the amended C4 at the two-container fixture. -/
theorem serviceInjector_per_container_witness :
    serviceInjector wTest (some [K8sObject.deployment dTwoContainers]) =
      .ok (some (K8sObject.deployment dTwoContainers ::
        (servicesForDeployment wTest dTwoContainers).map K8sObject.service)) :=
  (serviceInjector_per_container wTest dTwoContainers (by decide)).1

end OamRemote

namespace OamRemote

theorem lookupField_fieldsOf (s : Json) (k : String) :
    lookupField s.fieldsOf k = s.get? k := by
  cases s <;> rfl

/-- A key absent from an object patch keeps its value from the target. -/
theorem mergePatch_get?_not_mentioned (s dd : Json) (k : String)
    (hdd : dd.isObj = true) (h : dd.get? k = none) :
    (mergePatch s dd).get? k = s.get? k := by
  cases dd with
  | obj pfs =>
      show lookupField (mergeFields s.fieldsOf pfs) k = s.get? k
      rw [mergeFields_not_mentioned _ _ _ h, lookupField_fieldsOf]
  | null => simp [Json.isObj] at hdd
  | bool b => simp [Json.isObj] at hdd
  | num n => simp [Json.isObj] at hdd
  | str v => simp [Json.isObj] at hdd
  | arr xs => simp [Json.isObj] at hdd

/-- A non-null key of an object patch with distinct keys ends up merged
with the target's old value. -/
theorem mergePatch_get?_mentioned (s dd : Json) (k : String) (v : Json)
    (hnodup : dd.KeysNodup) (h : dd.get? k = some v) (hv : v ≠ .null) :
    (mergePatch s dd).get? k =
      some (mergePatch ((s.get? k).getD Json.null) v) := by
  cases dd with
  | obj pfs =>
      show lookupField (mergeFields s.fieldsOf pfs) k = _
      rw [mergeFields_mentioned pfs _ k v hnodup h hv, lookupField_fieldsOf]
  | null => simp [Json.get?] at h
  | bool b => simp [Json.get?] at h
  | num n => simp [Json.get?] at h
  | str v' => simp [Json.get?] at h
  | arr xs => simp [Json.get?] at h

/-- A non-object patch value replaces the target wholesale. -/
theorem mergePatch_nonobj (t v : Json) (hv : v.isObj = false) :
    mergePatch t v = v := by
  cases v <;> first
    | rfl
    | simp [Json.isObj] at hv

theorem indexLookup_indexInsert_self (ix : List (TemplateKey × Nat))
    (k : TemplateKey) (i : Nat) :
    indexLookup (indexInsert ix k i) k = some i := by
  induction ix with
  | nil => simp [indexInsert, indexLookup]
  | cons p rest ih =>
      obtain ⟨k', j⟩ := p
      by_cases h : k' = k
      · simp [indexInsert, h, indexLookup]
      · simp [indexInsert, h, indexLookup, ih]

theorem indexLookup_indexInsert_ne (ix : List (TemplateKey × Nat))
    (k k' : TemplateKey) (i : Nat) (h : k' ≠ k) :
    indexLookup (indexInsert ix k i) k' = indexLookup ix k' := by
  have hne : ¬ (k = k') := fun hh => h hh.symm
  induction ix with
  | nil => simp [indexInsert, indexLookup, hne]
  | cons p rest ih =>
      obtain ⟨k₀, j⟩ := p
      by_cases h₀ : k₀ = k
      · subst h₀
        simp [indexInsert, indexLookup, hne]
      · simp [indexInsert, h₀, indexLookup, ih]

theorem indexLookup_indexInsert_isSome (ix : List (TemplateKey × Nat))
    (k₀ k : TemplateKey) (i : Nat) :
    (indexLookup (indexInsert ix k₀ i) k).isSome = true ↔
      k = k₀ ∨ (indexLookup ix k).isSome = true := by
  by_cases h : k = k₀
  · subst h
    simp [indexLookup_indexInsert_self]
  · rw [indexLookup_indexInsert_ne ix k₀ k i (fun hh => h hh)]
    simp [h]

/-- Keys held by none of the templates pass through the index builder. -/
theorem buildIndexFrom_skip (ts : List ResourceTemplate)
    (ix : List (TemplateKey × Nat)) (i : Nat) (k : TemplateKey)
    (h : ∀ t ∈ ts, templateKey t ≠ k) :
    indexLookup (buildIndexFrom ix i ts) k = indexLookup ix k := by
  induction ts generalizing ix i with
  | nil => rfl
  | cons t rest ih =>
      rw [buildIndexFrom, ih _ _ (fun x hx => h x (List.mem_cons_of_mem t hx)),
        indexLookup_indexInsert_ne _ _ _ _
          (fun hh => h t (List.mem_cons_self t rest) hh.symm)]

/-- Whatever the index returns points at a template bearing that key. -/
theorem buildIndexFrom_sound (ts : List ResourceTemplate)
    (ix : List (TemplateKey × Nat)) (i : Nat) (k : TemplateKey) (r : Nat)
    (h : indexLookup (buildIndexFrom ix i ts) k = some r) :
    (∃ n t', ts.get? n = some t' ∧ templateKey t' = k ∧ r = i + n) ∨
      indexLookup ix k = some r := by
  induction ts generalizing ix i with
  | nil => exact Or.inr h
  | cons t rest ih =>
      rw [buildIndexFrom] at h
      rcases ih _ _ h with ⟨n, t', hget, hkey, hr⟩ | hbase
      · exact Or.inl ⟨n + 1, t', hget, hkey, by omega⟩
      · by_cases hk : k = templateKey t
        · subst hk
          rw [indexLookup_indexInsert_self] at hbase
          have hri : i = r := by simpa using hbase
          exact Or.inl ⟨0, t, rfl, rfl, by omega⟩
        · rw [indexLookup_indexInsert_ne _ _ _ _ hk] at hbase
          exact Or.inr hbase

/-- With pairwise-distinct template keys the index maps each template's
key to its own position. -/
theorem buildIndexFrom_complete (ts : List ResourceTemplate)
    (ix : List (TemplateKey × Nat)) (i n : Nat) (dt : ResourceTemplate)
    (hnodup : (ts.map templateKey).Nodup)
    (hget : ts.get? n = some dt) :
    indexLookup (buildIndexFrom ix i ts) (templateKey dt) = some (i + n) := by
  induction ts generalizing ix i n with
  | nil => simp [List.get?] at hget
  | cons t rest ih =>
      simp only [List.map_cons, List.nodup_cons] at hnodup
      cases n with
      | zero =>
          simp only [List.get?] at hget
          cases hget
          rw [buildIndexFrom, buildIndexFrom_skip _ _ _ _ ?nomem,
            indexLookup_indexInsert_self]
          · simp
          case nomem =>
            intro x hx hkey
            exact hnodup.1 (hkey ▸ List.mem_map_of_mem templateKey hx)
      | succ n' =>
          simp only [List.get?] at hget
          rw [buildIndexFrom, ih _ _ _ hnodup.2 hget]
          congr 1
          omega

/-- The index knows a key exactly when some template bears it. -/
theorem buildIndexFrom_isSome (ts : List ResourceTemplate)
    (ix : List (TemplateKey × Nat)) (i : Nat) (k : TemplateKey) :
    (indexLookup (buildIndexFrom ix i ts) k).isSome = true ↔
      (∃ t ∈ ts, templateKey t = k) ∨ (indexLookup ix k).isSome = true := by
  induction ts generalizing ix i with
  | nil => simp [buildIndexFrom]
  | cons t rest ih =>
      rw [buildIndexFrom, ih]
      rw [indexLookup_indexInsert_isSome]
      constructor
      · rintro (⟨x, hx, hk⟩ | hk | hbase)
        · exact Or.inl ⟨x, List.mem_cons_of_mem t hx, hk⟩
        · exact Or.inl ⟨t, List.mem_cons_self t rest, hk.symm⟩
        · exact Or.inr hbase
      · rintro (⟨x, hx, hk⟩ | hbase)
        · rcases List.mem_cons.mp hx with h1 | h2
          · subst h1; exact Or.inr (Or.inl hk.symm)
          · exact Or.inl ⟨x, h2, hk⟩
        · exact Or.inr (Or.inr hbase)

end OamRemote

namespace OamRemote

/-- One merge step only rewrites a template body in place. -/
theorem mergeTemplateStep_frame (ix : List (TemplateKey × Nat))
    (acc : KubernetesApplication) (t : ResourceTemplate) :
    (mergeTemplateStep ix acc t).name = acc.name ∧
    (mergeTemplateStep ix acc t).nspace = acc.nspace ∧
    (mergeTemplateStep ix acc t).ownerRefs = acc.ownerRefs ∧
    (mergeTemplateStep ix acc t).resourceSelector = acc.resourceSelector ∧
    (mergeTemplateStep ix acc t).resourceTemplates.length =
      acc.resourceTemplates.length := by
  cases hix : indexLookup ix (templateKey t) <;>
    simp [mergeTemplateStep, hix, modifyIdx_length]

/-- The merge loop only rewrites template bodies: the carrier's other
fields and the number of templates never change. -/
theorem foldl_mergeTemplateStep_frame (ix : List (TemplateKey × Nat))
    (ts : List ResourceTemplate) (acc : KubernetesApplication) :
    (ts.foldl (mergeTemplateStep ix) acc).name = acc.name ∧
    (ts.foldl (mergeTemplateStep ix) acc).nspace = acc.nspace ∧
    (ts.foldl (mergeTemplateStep ix) acc).ownerRefs = acc.ownerRefs ∧
    (ts.foldl (mergeTemplateStep ix) acc).resourceSelector = acc.resourceSelector ∧
    (ts.foldl (mergeTemplateStep ix) acc).resourceTemplates.length =
      acc.resourceTemplates.length := by
  induction ts generalizing acc with
  | nil => exact ⟨rfl, rfl, rfl, rfl, rfl⟩
  | cons t rest ih =>
      rw [List.foldl_cons]
      obtain ⟨e1, e2, e3, e4, e5⟩ := mergeTemplateStep_frame ix acc t
      obtain ⟨f1, f2, f3, f4, f5⟩ := ih (mergeTemplateStep ix acc t)
      exact ⟨f1.trans e1, f2.trans e2, f3.trans e3, f4.trans e4, f5.trans e5⟩

/-- What the merge loop does to the template at one position: its body
accumulates a merge for every stored template the index sends there. -/
theorem foldl_mergeTemplateStep_get? (ix : List (TemplateKey × Nat))
    (ts : List ResourceTemplate) (acc : KubernetesApplication) (j : Nat)
    (dt : ResourceTemplate) (h : acc.resourceTemplates.get? j = some dt) :
    (ts.foldl (mergeTemplateStep ix) acc).resourceTemplates.get? j =
      some { dt with
          template := ts.foldl (fun b t =>
            if indexLookup ix (templateKey t) = some j
            then mergePatch t.template b else b) dt.template } := by
  induction ts generalizing acc dt with
  | nil => simpa using h
  | cons t rest ih =>
      rw [List.foldl_cons, List.foldl_cons]
      cases hix : indexLookup ix (templateKey t) with
      | none =>
          rw [if_neg (by simp [hix])]
          have hstep : mergeTemplateStep ix acc t = acc := by
            simp [mergeTemplateStep, hix]
          rw [hstep]
          exact ih acc dt h
      | some i =>
          by_cases hij : i = j
          · subst hij
            rw [if_pos rfl]
            have hstep : (mergeTemplateStep ix acc t).resourceTemplates.get? i =
                some { dt with template := mergePatch t.template dt.template } := by
              simp only [mergeTemplateStep, hix]
              exact modifyIdx_get?_self _ _ _ _ h
            exact ih (mergeTemplateStep ix acc t) _ hstep
          · rw [if_neg (by simp [hix]; omega)]
            have hstep : (mergeTemplateStep ix acc t).resourceTemplates.get? j =
                some dt := by
              simp only [mergeTemplateStep, hix]
              rw [modifyIdx_get?_ne _ _ _ _ (fun hh => hij hh.symm)]
              exact h
            exact ih (mergeTemplateStep ix acc t) _ hstep

theorem foldl_guard_skip {α β : Type} (p : α → Prop) [DecidablePred p]
    (g : α → β → β) (ts : List α) (b : β) (h : ∀ t ∈ ts, ¬ p t) :
    ts.foldl (fun b t => if p t then g t b else b) b = b := by
  induction ts generalizing b with
  | nil => rfl
  | cons t rest ih =>
      rw [List.foldl_cons, if_neg (h t (List.mem_cons_self t rest))]
      exact ih b fun x hx => h x (List.mem_cons_of_mem t hx)

theorem foldl_guard_single {α β : Type} (p : α → Prop) [DecidablePred p]
    (f : α → Bool) (g : α → β → β) (ts : List α) (b : β) (t0 : α)
    (hiff : ∀ t, f t = true ↔ p t)
    (h : ts.filter f = [t0]) :
    ts.foldl (fun b t => if p t then g t b else b) b = g t0 b := by
  induction ts generalizing b with
  | nil => simp at h
  | cons t rest ih =>
      rw [List.filter_cons] at h
      by_cases hp : p t
      · rw [if_pos ((hiff t).mpr hp)] at h
        simp only [List.cons.injEq] at h
        obtain ⟨rfl, hrest⟩ := h
        rw [List.foldl_cons, if_pos hp]
        refine foldl_guard_skip p g rest (g t b) fun x hx hpx => ?_
        have : x ∈ rest.filter f := List.mem_filter.mpr ⟨hx, (hiff x).mpr hpx⟩
        rw [hrest] at this
        simp at this
      · rw [if_neg (by
          intro hf
          exact hp ((hiff t).mp hf))] at h
        rw [List.foldl_cons, if_neg hp]
        exact ih b h

theorem foldl_guard_filter {α β : Type} (p : α → Prop) [DecidablePred p]
    (q : α → Bool) (g : α → β → β) (ts : List α) (b : β)
    (himp : ∀ t, p t → q t = true) :
    (ts.filter q).foldl (fun b t => if p t then g t b else b) b =
      ts.foldl (fun b t => if p t then g t b else b) b := by
  induction ts generalizing b with
  | nil => rfl
  | cons t rest ih =>
      rw [List.filter_cons]
      by_cases hq : q t = true
      · rw [if_pos hq, List.foldl_cons, List.foldl_cons]
        exact ih _
      · have hp : ¬ p t := fun hp => hq (himp t hp)
        rw [if_neg hq, List.foldl_cons, if_neg hp]
        exact ih b

theorem KubernetesApplication.eq_of_fields {a b : KubernetesApplication}
    (h1 : a.name = b.name) (h2 : a.nspace = b.nspace)
    (h3 : a.ownerRefs = b.ownerRefs) (h4 : a.resourceSelector = b.resourceSelector)
    (h5 : a.resourceTemplates = b.resourceTemplates) : a = b := by
  cases a
  cases b
  simp_all

end OamRemote

namespace OamRemote

/-- With pairwise-distinct desired keys, the index sends a key to
position `j` exactly when it is the key of the desired template at `j`. -/
theorem indexLookup_buildIndex_iff (d : List ResourceTemplate) (j : Nat)
    (dt : ResourceTemplate) (hdt : d.get? j = some dt)
    (hnodup : (d.map templateKey).Nodup) (k : TemplateKey) :
    indexLookup (buildIndex d) k = some j ↔ k = templateKey dt := by
  constructor
  · intro h
    rcases buildIndexFrom_sound d [] 0 k j h with ⟨n, t', hget, hkey, hj⟩ | hbase
    · have hnj : n = j := by omega
      subst hnj
      rw [hdt] at hget
      cases hget
      exact hkey.symm
    · simp [indexLookup] at hbase
  · intro h
    subst h
    have := buildIndexFrom_complete d [] 0 j dt hnodup hdt
    simpa using this

/-- With pairwise-distinct desired keys, the merged body at position `j`
accumulates exactly the stored templates bearing that position's key. -/
theorem kubeAppApplyOptionMerge_get? (c d : KubernetesApplication) (j : Nat)
    (dt : ResourceTemplate) (hdt : d.resourceTemplates.get? j = some dt)
    (hnodup : (d.resourceTemplates.map templateKey).Nodup) :
    (kubeAppApplyOptionMerge c d).resourceTemplates.get? j =
      some { dt with
          template := c.resourceTemplates.foldl (fun b t =>
            if templateKey t = templateKey dt
            then mergePatch t.template b else b) dt.template } := by
  rw [kubeAppApplyOptionMerge,
    foldl_mergeTemplateStep_get? (buildIndex d.resourceTemplates)
      c.resourceTemplates d j dt hdt]
  have hext : ∀ b, ∀ t ∈ c.resourceTemplates,
      (if indexLookup (buildIndex d.resourceTemplates) (templateKey t) = some j
       then mergePatch t.template b else b) =
      (if templateKey t = templateKey dt then mergePatch t.template b else b) := by
    intro b t _
    by_cases hk : templateKey t = templateKey dt
    · rw [if_pos hk,
        if_pos ((indexLookup_buildIndex_iff _ _ _ hdt hnodup _).mpr hk)]
    · rw [if_neg hk,
        if_neg (fun hc => hk ((indexLookup_buildIndex_iff _ _ _ hdt hnodup _).mp hc))]
  rw [List.foldl_ext _ _ dt.template hext]

/-- A stored template that is the sole bearer of a desired key merges
into the desired template with that key, wherever each one sits. -/
theorem kubeAppApplyOptionMerge_single (c d : KubernetesApplication)
    (j : Nat) (dt t : ResourceTemplate)
    (hdt : d.resourceTemplates.get? j = some dt)
    (hnodup : (d.resourceTemplates.map templateKey).Nodup)
    (hmatch : c.resourceTemplates.filter
      (fun r => templateKey r == templateKey dt) = [t]) :
    (kubeAppApplyOptionMerge c d).resourceTemplates.get? j =
      some { dt with template := mergePatch t.template dt.template } := by
  rw [kubeAppApplyOptionMerge_get? c d j dt hdt hnodup]
  have hfold : c.resourceTemplates.foldl (fun b t =>
      if templateKey t = templateKey dt
      then mergePatch t.template b else b) dt.template =
      mergePatch t.template dt.template :=
    foldl_guard_single (fun r => templateKey r = templateKey dt)
      (fun r => templateKey r == templateKey dt)
      (fun t b => mergePatch t.template b) c.resourceTemplates dt.template t
      (fun r => by simp) hmatch
  rw [hfold]

/-- A desired template whose key no stored template bears is left
untouched. -/
theorem kubeAppApplyOptionMerge_untouched (c d : KubernetesApplication)
    (j : Nat) (dt : ResourceTemplate)
    (hdt : d.resourceTemplates.get? j = some dt)
    (hnodup : (d.resourceTemplates.map templateKey).Nodup)
    (hmatch : c.resourceTemplates.filter
      (fun r => templateKey r == templateKey dt) = []) :
    (kubeAppApplyOptionMerge c d).resourceTemplates.get? j = some dt := by
  rw [kubeAppApplyOptionMerge_get? c d j dt hdt hnodup]
  have hall : ∀ r ∈ c.resourceTemplates, ¬ templateKey r = templateKey dt := by
    intro r hr hk
    have : r ∈ c.resourceTemplates.filter
        (fun r => templateKey r == templateKey dt) :=
      List.mem_filter.mpr ⟨hr, by simp [hk]⟩
    rw [hmatch] at this
    simp at this
  have hfold : c.resourceTemplates.foldl (fun b t =>
      if templateKey t = templateKey dt
      then mergePatch t.template b else b) dt.template = dt.template :=
    foldl_guard_skip (fun r => templateKey r = templateKey dt)
      (fun t b => mergePatch t.template b) c.resourceTemplates dt.template hall
  rw [hfold]

end OamRemote

namespace OamRemote

/-- C2: the merge engine matches templates by identity key — embedded
GroupVersionKind plus template name — not by position: lengths and
per-position metadata come from the desired carrier, a desired template
whose key no stored template bears is untouched, the sole stored bearer
of a desired key is merged into that key's desired template wherever
each sits, and stored templates whose key is absent from the desired
index contribute nothing (dropping them changes nothing, so the desired
set is definitive at template granularity). -/
theorem kubeAppApplyOption_matches_by_key (c d : KubernetesApplication)
    (hnodup : (d.resourceTemplates.map templateKey).Nodup) :
    ((kubeAppApplyOptionMerge c d).resourceTemplates.length =
      d.resourceTemplates.length) ∧
    (∀ j dt, d.resourceTemplates.get? j = some dt →
      ∃ bt, (kubeAppApplyOptionMerge c d).resourceTemplates.get? j = some bt ∧
        bt.name = dt.name ∧ bt.labels = dt.labels) ∧
    (∀ j dt, d.resourceTemplates.get? j = some dt →
      c.resourceTemplates.filter (fun r => templateKey r == templateKey dt) = [] →
      (kubeAppApplyOptionMerge c d).resourceTemplates.get? j = some dt) ∧
    (∀ j dt t, d.resourceTemplates.get? j = some dt →
      c.resourceTemplates.filter (fun r => templateKey r == templateKey dt) = [t] →
      (kubeAppApplyOptionMerge c d).resourceTemplates.get? j =
        some { dt with template := mergePatch t.template dt.template }) ∧
    kubeAppApplyOptionMerge { c with
        resourceTemplates := c.resourceTemplates.filter (fun r =>
          (indexLookup (buildIndex d.resourceTemplates) (templateKey r)).isSome) } d =
      kubeAppApplyOptionMerge c d := by
  refine ⟨?_, ?_, ?_, ?_, ?_⟩
  · exact (foldl_mergeTemplateStep_frame _ _ _).2.2.2.2
  · intro j dt hdt
    exact ⟨_, kubeAppApplyOptionMerge_get? c d j dt hdt hnodup, rfl, rfl⟩
  · intro j dt hdt hmatch
    exact kubeAppApplyOptionMerge_untouched c d j dt hdt hnodup hmatch
  · intro j dt t hdt hmatch
    exact kubeAppApplyOptionMerge_single c d j dt t hdt hnodup hmatch
  · have hq : ∀ (j : Nat) (dt : ResourceTemplate),
        d.resourceTemplates.get? j = some dt → ∀ r : ResourceTemplate,
        templateKey r = templateKey dt →
        (indexLookup (buildIndex d.resourceTemplates) (templateKey r)).isSome = true := by
      intro j dt hdt r hk
      rw [Option.isSome_iff_exists]
      exact ⟨j, (indexLookup_buildIndex_iff _ _ _ hdt hnodup _).mpr hk⟩
    refine KubernetesApplication.eq_of_fields ?_ ?_ ?_ ?_ ?_
    · exact ((foldl_mergeTemplateStep_frame _ _ _).1).trans
        ((foldl_mergeTemplateStep_frame _ _ _).1).symm
    · exact ((foldl_mergeTemplateStep_frame _ _ _).2.1).trans
        ((foldl_mergeTemplateStep_frame _ _ _).2.1).symm
    · exact ((foldl_mergeTemplateStep_frame _ _ _).2.2.1).trans
        ((foldl_mergeTemplateStep_frame _ _ _).2.2.1).symm
    · exact ((foldl_mergeTemplateStep_frame _ _ _).2.2.2.1).trans
        ((foldl_mergeTemplateStep_frame _ _ _).2.2.2.1).symm
    · apply List.ext
      intro j
      cases hdt : d.resourceTemplates.get? j with
      | none =>
          have hlen : d.resourceTemplates.length ≤ j := List.get?_eq_none.mp hdt
          rw [List.get?_eq_none.mpr ?hl, List.get?_eq_none.mpr ?hr]
          case hl =>
            rw [kubeAppApplyOptionMerge,
              (foldl_mergeTemplateStep_frame _ _ _).2.2.2.2]
            exact hlen
          case hr =>
            rw [kubeAppApplyOptionMerge,
              (foldl_mergeTemplateStep_frame _ _ _).2.2.2.2]
            exact hlen
      | some dt =>
          rw [kubeAppApplyOptionMerge_get? _ d j dt hdt hnodup,
            kubeAppApplyOptionMerge_get? c d j dt hdt hnodup]
          have hfilter := foldl_guard_filter
            (fun r : ResourceTemplate => templateKey r = templateKey dt)
            (fun r => (indexLookup (buildIndex d.resourceTemplates) (templateKey r)).isSome)
            (fun t b => mergePatch t.template b) c.resourceTemplates dt.template
            (hq j dt hdt)
          rw [hfilter]

end OamRemote

namespace OamRemote

/-- C1: for a stored template that is the sole bearer of a desired
template's key, the per-template merge gives the desired body patched
onto the stored body: fields absent from the desired body keep their
stored value, every non-null scalar field set in the desired body takes
the desired value, every array-valued desired field is exactly the
desired array (never a union or element-wise merge), and object-valued
desired fields merge recursively. -/
theorem kubeAppApplyOption_field_level_merge (c d : KubernetesApplication)
    (j : Nat) (dt t : ResourceTemplate)
    (hdt : d.resourceTemplates.get? j = some dt)
    (hnodup : (d.resourceTemplates.map templateKey).Nodup)
    (hmatch : c.resourceTemplates.filter
      (fun r => templateKey r == templateKey dt) = [t]) :
    ∃ bt, (kubeAppApplyOptionMerge c d).resourceTemplates.get? j = some bt ∧
      bt.template = mergePatch t.template dt.template ∧
      (dt.template.isObj = true → ∀ k, dt.template.get? k = none →
        bt.template.get? k = t.template.get? k) ∧
      (dt.template.KeysNodup →
        (∀ k v, dt.template.get? k = some v → v.isArr = true →
          bt.template.get? k = some v) ∧
        (∀ k v, dt.template.get? k = some v → v.isObj = false → v ≠ .null →
          bt.template.get? k = some v) ∧
        (∀ k v, dt.template.get? k = some v → v.isObj = true →
          bt.template.get? k =
            some (mergePatch ((t.template.get? k).getD Json.null) v))) := by
  refine ⟨_, kubeAppApplyOptionMerge_single c d j dt t hdt hnodup hmatch,
    rfl, ?_, ?_⟩
  · intro hobj k hk
    exact mergePatch_get?_not_mentioned _ _ _ hobj hk
  · intro hkn
    refine ⟨?_, ?_, ?_⟩
    · intro k v hv harr
      rw [mergePatch_get?_mentioned _ _ _ _ hkn hv
          (by intro h; subst h; simp [Json.isArr] at harr),
        mergePatch_nonobj _ _ (by cases v <;> simp_all [Json.isArr, Json.isObj])]
    · intro k v hv hobj hnull
      rw [mergePatch_get?_mentioned _ _ _ _ hkn hv hnull,
        mergePatch_nonobj _ _ hobj]
    · intro k v hv hobj
      exact mergePatch_get?_mentioned _ _ _ _ hkn hv
        (by intro h; subst h; simp [Json.isObj] at hobj)

/-- Witness for C1: the `cool-temp` pair of `appStored` and `appDesired`. -/
theorem kubeAppApplyOption_field_level_merge_witness :
    ∃ bt, (kubeAppApplyOptionMerge appStored appDesired).resourceTemplates.get? 1 =
        some bt ∧
      bt.template = mergePatch tmplStoredCool.template tmplDesiredCool.template ∧
      (tmplDesiredCool.template.isObj = true →
        ∀ k, tmplDesiredCool.template.get? k = none →
          bt.template.get? k = tmplStoredCool.template.get? k) ∧
      (tmplDesiredCool.template.KeysNodup →
        (∀ k v, tmplDesiredCool.template.get? k = some v → v.isArr = true →
          bt.template.get? k = some v) ∧
        (∀ k v, tmplDesiredCool.template.get? k = some v → v.isObj = false →
          v ≠ .null → bt.template.get? k = some v) ∧
        (∀ k v, tmplDesiredCool.template.get? k = some v → v.isObj = true →
          bt.template.get? k =
            some (mergePatch ((tmplStoredCool.template.get? k).getD Json.null) v))) :=
  kubeAppApplyOption_field_level_merge appStored appDesired 1
    tmplDesiredCool tmplStoredCool rfl (by decide) rfl

/-- Witness for C2: length preservation and the key-based merge of the
`cool-temp` pair, with the stored template at position 0 merged into the
desired template at position 1. -/
theorem kubeAppApplyOption_matches_by_key_witness :
    (kubeAppApplyOptionMerge appStored appDesired).resourceTemplates.length =
      appDesired.resourceTemplates.length ∧
    (kubeAppApplyOptionMerge appStored appDesired).resourceTemplates.get? 1 =
      some { tmplDesiredCool with
          template := mergePatch tmplStoredCool.template tmplDesiredCool.template } :=
  ⟨(kubeAppApplyOption_matches_by_key appStored appDesired (by decide)).1,
   (kubeAppApplyOption_matches_by_key appStored appDesired (by decide)).2.2.2.1
     1 tmplDesiredCool tmplStoredCool rfl rfl⟩

end OamRemote
